import Mathlib

/-!
Verification of the HTR (handwritten text recognition) inference pipeline of
`src/htr_pipeline/inferencer.py`.

The orchestrator (`Inferencer.predict_regions`, `Inferencer.predict_lines`,
`Inferencer.transcribe`, `Inferencer.transcribe_different_model`) is embedded
directly from the source file.  The pipeline utilities it calls
(`FilterSegMask.filter_on_pred_threshold`, `FilterSegMask.remove_overlapping_masks`,
`SegMaskHelper.align_masks_with_image`, `SegMaskHelper.crop_masks`,
`OrderObject.order_regions_marginalia`, `OrderObject.order_lines`) are not part
of the repository's files, so they are modelled from the specification's
descriptions of these components; each such definition carries a
`Modelled from the spec:` note.

External collaborators (the segmentation models, the transcription model, the
binarizer, the visualizer) are treated as parameters: the orchestrator is
embedded as a function of the instance list the segmentation model returns.
The sequence of stage invocations the orchestrator performs is recorded in an
event log so that claims about call order ("before any model call", "filter
then align then resolve") can be stated.
-/

namespace HtrPipeline

/-- A segmentation mask, as a set of pixel coordinates (a binary pixel region). -/
abbrev Mask := List (Nat × Nat)

/-- One predicted object from a segmentation model: a mask and a confidence
score.  Embeds a row of `pred_instances` (`masks[k]`, `scores[k]`). -/
structure RawInstance where
  mask : Mask
  score : ℚ
deriving DecidableEq, Repr, Inhabited

/-- Pixel area of a mask (duplicate pixels counted once). -/
def maskArea (m : Mask) : Nat := m.dedup.length

/-- Pixel area of the intersection of two masks. -/
def interArea (a b : Mask) : Nat := (a.dedup.filter (fun p => decide (p ∈ b))).length

/-- Modelled from the spec: `containment_ratio(A, B) = area(A ∩ B) / area(A)`
(`mkRat n d` is the rational number `n / d`; a zero-area mask gives ratio 0). -/
def containment_ratio (a b : Mask) : ℚ := mkRat (interArea a b) (maskArea a)

/-- Modelled from the spec: `FilterSegMask.filter_on_pred_threshold` keeps the
instances with `score >= threshold`, in their original order (stable filter). -/
def filter_on_pred_threshold (insts : List RawInstance) (pred_score_threshold : ℚ) :
    List RawInstance :=
  insts.filter (fun i => decide (pred_score_threshold ≤ i.score))

/-- Modelled from the spec: `SegMaskHelper.align_masks_with_image` maps each
mask onto the source image's pixel coordinate frame (the identity here, since
the embedded masks already use absolute pixel coordinates) and excludes
degenerate masks — zero area after alignment — from the output. -/
def align_masks_with_image (insts : List RawInstance) : List RawInstance :=
  insts.filter (fun i => decide (0 < maskArea i.mask))

/-- Element of a list at an index, with the `Inhabited` default out of range. -/
def getInst (l : List RawInstance) (i : Nat) : RawInstance := l.getD i default

/-- Containment ratio between the masks at two positions of an instance list. -/
def ratioIdx (l : List RawInstance) (i j : Nat) : ℚ :=
  containment_ratio (getInst l i).mask (getInst l j).mask

/-- All ordered position pairs `(i, j)`, `i ≠ j`, whose containment ratio
reaches the threshold: the pairs where instance `i` is absorbed by `j`. -/
def violPairs (l : List RawInstance) (t : ℚ) : List (Nat × Nat) :=
  ((List.range l.length).product (List.range l.length)).filter
    (fun p => decide (p.1 ≠ p.2 ∧ t ≤ ratioIdx l p.1 p.2))

/-- First violating pair, when one exists. -/
def findViolation (l : List RawInstance) (t : ℚ) : Option (Nat × Nat) :=
  (violPairs l t).head?

/-- Modelled from the spec: the tie-break of `remove_overlapping_masks`.  For a
violating pair `(i, j)` (instance `i` absorbed by `j`): if the containment is
mutual, the smaller-area instance is removed, and at equal areas the
lower-confidence one; otherwise the absorbed instance `i` is removed. -/
def removalIdx (l : List RawInstance) (t : ℚ) (i j : Nat) : Nat :=
  if t ≤ ratioIdx l j i then
    if maskArea (getInst l i).mask < maskArea (getInst l j).mask then i
    else if maskArea (getInst l j).mask < maskArea (getInst l i).mask then j
    else if (getInst l i).score < (getInst l j).score then i
    else if (getInst l j).score < (getInst l i).score then j
    else i
  else i

/-- One removal per step, iterated; the fuel bounds the number of steps by the
instance count (each step removes exactly one instance or terminates). -/
def resolveAux (t : ℚ) : Nat → List RawInstance → List RawInstance
  | 0, l => l
  | fuel + 1, l =>
    match findViolation l t with
    | none => l
    | some (i, j) => resolveAux t fuel (l.eraseIdx (removalIdx l t i j))

/-- Modelled from the spec: `FilterSegMask.remove_overlapping_masks` — for every
ordered pair `(A, B)` with `containment_ratio(A, B) >= containments_threshold`,
`A` is absorbed by `B` and removed (mutual containment tie-broken by area, then
by confidence); survivors are recomputed iteratively until no pair reaches the
threshold, keeping the original relative order. -/
def remove_overlapping_masks (predicted_mask : List RawInstance)
    (containments_threshold : ℚ) : List RawInstance :=
  resolveAux containments_threshold predicted_mask.length predicted_mask

lemma head?_some_mem {α : Type} {l : List α} {a : α} (h : l.head? = some a) : a ∈ l := by
  cases l with
  | nil => simp at h
  | cons x xs =>
    simp only [List.head?, Option.some.injEq] at h
    exact h ▸ List.mem_cons_self x xs

lemma findViolation_some {l : List RawInstance} {t : ℚ} {i j : Nat}
    (h : findViolation l t = some (i, j)) :
    i < l.length ∧ j < l.length ∧ i ≠ j ∧ t ≤ ratioIdx l i j := by
  have hmem : (i, j) ∈ violPairs l t := head?_some_mem h
  unfold violPairs at hmem
  have hmem' := List.mem_filter.mp hmem
  have hprod := List.mem_product.mp hmem'.1
  have hcond := of_decide_eq_true hmem'.2
  exact ⟨List.mem_range.mp hprod.1, List.mem_range.mp hprod.2, hcond.1, hcond.2⟩

lemma findViolation_none {l : List RawInstance} {t : ℚ}
    (h : findViolation l t = none) :
    ∀ i j : Nat, i < l.length → j < l.length → i ≠ j → ratioIdx l i j < t := by
  intro i j hi hj hij
  have hnil : violPairs l t = [] := List.head?_eq_none_iff.mp h
  by_contra hle
  have hmem : (i, j) ∈ violPairs l t := by
    unfold violPairs
    refine List.mem_filter.mpr ⟨List.mem_product.mpr ⟨List.mem_range.mpr hi, List.mem_range.mpr hj⟩, ?_⟩
    exact decide_eq_true ⟨hij, le_of_not_lt hle⟩
  rw [hnil] at hmem
  exact absurd hmem (List.not_mem_nil _)

lemma removalIdx_lt {l : List RawInstance} {t : ℚ} {i j : Nat}
    (hi : i < l.length) (hj : j < l.length) : removalIdx l t i j < l.length := by
  unfold removalIdx
  repeat' split
  all_goals first | exact hi | exact hj

lemma resolveAux_findViolation_none (t : ℚ) :
    ∀ fuel : Nat, ∀ l : List RawInstance, l.length ≤ fuel →
      findViolation (resolveAux t fuel l) t = none := by
  intro fuel
  induction fuel with
  | zero =>
    intro l hl
    have : l = [] := List.length_eq_zero.mp (Nat.le_zero.mp hl)
    subst this
    rfl
  | succ fuel ih =>
    intro l hl
    show findViolation (resolveAux t (fuel + 1) l) t = none
    rw [resolveAux]
    cases h : findViolation l t with
    | none => exact h
    | some p =>
      obtain ⟨i, j⟩ := p
      obtain ⟨hi, hj, _, _⟩ := findViolation_some h
      have hrem : removalIdx l t i j < l.length := removalIdx_lt hi hj
      have hlen : (l.eraseIdx (removalIdx l t i j)).length = l.length - 1 :=
        List.length_eraseIdx_of_lt hrem
      have hle : (l.eraseIdx (removalIdx l t i j)).length ≤ fuel := by
        rw [hlen]
        omega
      exact ih _ hle

lemma remove_overlapping_masks_findViolation_none (l : List RawInstance) (t : ℚ) :
    findViolation (remove_overlapping_masks l t) t = none :=
  resolveAux_findViolation_none t l.length l le_rfl

lemma resolveAux_of_none {l : List RawInstance} {t : ℚ} (fuel : Nat)
    (h : findViolation l t = none) : resolveAux t fuel l = l := by
  cases fuel with
  | zero => rfl
  | succ fuel =>
    rw [resolveAux, h]

/-! ## Reading order -/

/-- The x coordinates of a mask's pixels. -/
def xsOf (m : Mask) : List Nat := m.map Prod.fst

/-- The y coordinates of a mask's pixels. -/
def ysOf (m : Mask) : List Nat := m.map Prod.snd

/-- Minimum of a list of naturals (0 for the empty list). -/
def minOf : List Nat → Nat
  | [] => 0
  | x :: xs => xs.foldl Nat.min x

/-- Maximum of a list of naturals (0 for the empty list). -/
def maxOf : List Nat → Nat
  | [] => 0
  | x :: xs => xs.foldl Nat.max x

/-- Horizontal center of a mask's bounding box. -/
def xCenter (m : Mask) : ℚ := mkRat (minOf (xsOf m) + maxOf (xsOf m)) 2

/-- Vertical center of a mask's bounding box. -/
def yCenter (m : Mask) : ℚ := mkRat (minOf (ysOf m) + maxOf (ysOf m)) 2

/-- Height of a mask's bounding box. -/
def maskHeight (m : Mask) : Nat :=
  if m.isEmpty then 0 else maxOf (ysOf m) - minOf (ysOf m) + 1

/-- Width of a mask's bounding box. -/
def maskWidth (m : Mask) : Nat :=
  if m.isEmpty then 0 else maxOf (xsOf m) - minOf (xsOf m) + 1

/-- Comparator on positions of an instance list: vertical center order. -/
def leYC (l : List RawInstance) (i j : Nat) : Bool :=
  decide (yCenter (getInst l i).mask ≤ yCenter (getInst l j).mask)

/-- Minimum of a list of rationals (0 for the empty list). -/
def qMinOf : List ℚ → ℚ
  | [] => 0
  | x :: xs => xs.foldl min x

/-- Maximum of a list of rationals (0 for the empty list). -/
def qMaxOf : List ℚ → ℚ
  | [] => 0
  | x :: xs => xs.foldl max x

/-- Modelled from the spec: an instance counts as a main-column candidate when
its width is not anomalously small relative to the page — here, at least half
the widest instance's width. -/
def isWideMain (l : List RawInstance) (i : Nat) : Bool :=
  decide (maxOf (l.map (fun r => maskWidth r.mask)) ≤ 2 * maskWidth (getInst l i).mask)

/-- Modelled from the spec: the main text column's inferred horizontal bounds —
the span of the horizontal centers of the main-column candidates. -/
def mainBounds (l : List RawInstance) : ℚ × ℚ :=
  let cs := ((List.range l.length).filter (isWideMain l)).map
    (fun i => xCenter (getInst l i).mask)
  (qMinOf cs, qMaxOf cs)

/-- Modelled from the spec: a region is marginalia when its horizontal center
falls outside the main text column's inferred bounds. -/
def isMarginal (l : List RawInstance) (i : Nat) : Bool :=
  decide (xCenter (getInst l i).mask < (mainBounds l).1 ∨
    (mainBounds l).2 < xCenter (getInst l i).mask)

/-- Modelled from the spec: `OrderObject.order_regions_marginalia` — main-text
regions ordered top-to-bottom by vertical center, then the marginalia appended,
also top-to-bottom.  Returns a reading order as a list of positions into the
input CleanInstanceSet. -/
def order_regions_marginalia (result_clean : List RawInstance) : List Nat :=
  let idx := List.range result_clean.length
  let mainIdx := idx.filter (fun i => ! isMarginal result_clean i)
  let margIdx := idx.filter (fun i => isMarginal result_clean i)
  mainIdx.mergeSort (leYC result_clean) ++ margIdx.mergeSort (leYC result_clean)

/-- Positions sorted by vertical center. -/
def byYCenter (l : List RawInstance) : List Nat :=
  (List.range l.length).mergeSort (leYC l)

/-- Modelled from the spec: the median line height over all surviving line
instances (middle element of the sorted heights). -/
def medianLineHeight (l : List RawInstance) : ℚ :=
  let hs := (l.map (fun i => maskHeight i.mask)).mergeSort (fun a b => decide (a ≤ b))
  (hs.getD (hs.length / 2) 0 : Nat)

/-- Walks the positions in vertical order and opens a new band whenever the
vertical gap to the previous line reaches the band threshold; returns each
position with its band number. -/
def assignBands (cyf : Nat → ℚ) (thr : ℚ) : List Nat → Nat → ℚ → List (Nat × Nat)
  | [], _, _ => []
  | i :: is, b, prev =>
    if cyf i - prev < thr then (i, b) :: assignBands cyf thr is b (cyf i)
    else (i, b + 1) :: assignBands cyf thr is (b + 1) (cyf i)

/-- Band number of every position, walking `byYCenter` top to bottom. -/
def bandAssignment (l : List RawInstance) (thr : ℚ) : List (Nat × Nat) :=
  match byYCenter l with
  | [] => []
  | i :: is =>
    (i, 0) :: assignBands (fun k => yCenter (getInst l k).mask) thr is 0
      (yCenter (getInst l i).mask)

/-- Band number of one position (0 out of range). -/
def bandOf (l : List RawInstance) (thr : ℚ) (i : Nat) : Nat :=
  ((bandAssignment l thr).lookup i).getD 0

/-- Modelled from the spec: `OrderObject.order_lines` — lines are grouped into
horizontal bands (same band when the vertical gap is below
`line_spacing_factor × median line height`), bands ordered top-to-bottom,
lines within a band ordered left-to-right by horizontal center. -/
def order_lines (line_image : List RawInstance) (line_spacing_factor : ℚ) : List Nat :=
  let thr := line_spacing_factor * medianLineHeight line_image
  (byYCenter line_image).mergeSort (fun i j =>
    decide (bandOf line_image thr i < bandOf line_image thr j ∨
      (bandOf line_image thr i = bandOf line_image thr j ∧
        xCenter (getInst line_image i).mask ≤ xCenter (getInst line_image j).mask)))

lemma filter_not_append_filter_perm {α : Type} (p : α → Bool) (l : List α) :
    List.Perm (l.filter (fun a => ! p a) ++ l.filter p) l := by
  induction l with
  | nil => simp
  | cons a l ih =>
    by_cases h : p a
    · simp only [List.filter_cons, h, Bool.not_true, cond_false, cond_true]
      exact List.perm_middle.trans (ih.cons a)
    · have h' : p a = false := Bool.eq_false_iff.mpr h
      simp only [List.filter_cons, h', Bool.not_false, cond_true, cond_false, List.cons_append]
      exact (ih.cons a)

lemma order_regions_marginalia_perm (l : List RawInstance) :
    List.Perm (order_regions_marginalia l) (List.range l.length) := by
  unfold order_regions_marginalia
  exact ((List.mergeSort_perm _ _).append (List.mergeSort_perm _ _)).trans
    (filter_not_append_filter_perm _ _)

lemma order_lines_perm (l : List RawInstance) (sf : ℚ) :
    List.Perm (order_lines l sf) (List.range l.length) := by
  unfold order_lines byYCenter
  exact (List.mergeSort_perm _ _).trans (List.mergeSort_perm _ _)

/-! ## Cropping -/

/-- A rectangular sub-image, identified by the bounding box it was extracted
with. -/
structure Crop where
  xLo : Nat
  yLo : Nat
  xHi : Nat
  yHi : Nat
deriving DecidableEq, Repr, Inhabited

/-- A polygon boundary approximating a mask. -/
abbrev Polygon := List (Nat × Nat)

/-- The crop of one instance: the axis-aligned bounding box of its mask. -/
def cropOf (inst : RawInstance) : Crop :=
  ⟨minOf (xsOf inst.mask), minOf (ysOf inst.mask),
    maxOf (xsOf inst.mask), maxOf (ysOf inst.mask)⟩

/-- The polygon of one instance: its traced mask boundary.  Boundary tracing is
abstracted as a deterministic function of the mask. -/
def polygonOf (inst : RawInstance) : Polygon := inst.mask

/-- Modelled from the spec: `SegMaskHelper.crop_masks` — one (crop, polygon)
pair per instance, index-aligned with the input CleanInstanceSet order. -/
def crop_masks (result_clean : List RawInstance) : List Crop × List Polygon :=
  (result_clean.map cropOf, result_clean.map polygonOf)

/-! ## The orchestrator (`Inferencer`) -/

/-- One stage invocation of the orchestrator, in the order the source performs
them. -/
inductive Ev
  | binarize
  | segModel
  | lineModel
  | filterStage
  | alignStage
  | resolveStage
  | vizStage
  | cropStage
  | orderStage
deriving DecidableEq, Repr

/-- A raised `gr.Error`, carrying its message. -/
inductive PipeError
  | grError (msg : String)
deriving DecidableEq, Repr

/-- The tuple `predict_regions` returns: visualization (when requested), the
ordered crops, the ordered polygons and the ordered masks. -/
structure RegionsOut where
  viz : Option (List RawInstance)
  crops : List Crop
  polygons : List Polygon
  masks : List Mask
deriving DecidableEq, Repr

/-- The tuple `predict_lines` returns; every component is optional because the
source returns the triple `None, None, None` on the lenient empty path. -/
structure LinesOut where
  viz : Option (List RawInstance)
  crops : Option (List Crop)
  polygons : Option (List Polygon)
deriving DecidableEq, Repr

/-- `filtered_result_pred` of `predict_regions` (inferencer.py line 44). -/
def filteredRegions (segOut : List RawInstance) (pred_score_threshold : ℚ) :
    List RawInstance :=
  filter_on_pred_threshold segOut pred_score_threshold

/-- `result_align` of `predict_regions` (line 52). -/
def alignedRegions (segOut : List RawInstance) (pred_score_threshold : ℚ) :
    List RawInstance :=
  align_masks_with_image (filteredRegions segOut pred_score_threshold)

/-- `result_clean` of `predict_regions` (line 53). -/
def cleanRegions (segOut : List RawInstance) (pred_score_threshold containments_threshold : ℚ) :
    List RawInstance :=
  remove_overlapping_masks (alignedRegions segOut pred_score_threshold) containments_threshold

/-- `order` of `predict_regions` (line 65). -/
def orderRegions (segOut : List RawInstance) (p c : ℚ) : List Nat :=
  order_regions_marginalia (cleanRegions segOut p c)

/-- `regions_cropped_ordered` of `predict_regions` (line 67). -/
def orderedCrops (segOut : List RawInstance) (p c : ℚ) : List Crop :=
  (orderRegions segOut p c).map
    (fun i => ((crop_masks (cleanRegions segOut p c)).1).getD i default)

/-- `polygons_ordered` of `predict_regions` (line 68). -/
def orderedPolygons (segOut : List RawInstance) (p c : ℚ) : List Polygon :=
  (orderRegions segOut p c).map
    (fun i => ((crop_masks (cleanRegions segOut p c)).2).getD i default)

/-- `masks_ordered` of `predict_regions` (line 69). -/
def orderedMasks (segOut : List RawInstance) (p c : ℚ) : List Mask :=
  (orderRegions segOut p c).map
    (fun i => ((cleanRegions segOut p c).getD i default).mask)

/-- `Inferencer.predict_regions` (lines 35–71), as a function of the region
model's prediction for the binarized image.  Returns the stage log and either
the raised `gr.Error` or the result tuple. -/
def predict_regions (segOut : List RawInstance)
    (pred_score_threshold containments_threshold : ℚ) (visualize : Bool) :
    List Ev × Except PipeError RegionsOut :=
  if (filteredRegions segOut pred_score_threshold).length = 0 then
    ([Ev.binarize, Ev.segModel, Ev.filterStage],
      Except.error (PipeError.grError "No Regions were predicted by the model"))
  else
    ([Ev.binarize, Ev.segModel, Ev.filterStage, Ev.alignStage, Ev.resolveStage]
        ++ (if visualize then [Ev.vizStage] else []) ++ [Ev.cropStage, Ev.orderStage],
      Except.ok
        ⟨if visualize then some (cleanRegions segOut pred_score_threshold containments_threshold)
          else none,
        orderedCrops segOut pred_score_threshold containments_threshold,
        orderedPolygons segOut pred_score_threshold containments_threshold,
        orderedMasks segOut pred_score_threshold containments_threshold⟩)

/-- `filtered_result_tl_pred` of `predict_lines` (line 86). -/
def filteredLines (lineOut : List RawInstance) (pred_score_threshold : ℚ) :
    List RawInstance :=
  filter_on_pred_threshold lineOut pred_score_threshold

/-- `result_tl_clean` of `predict_lines` (line 98). -/
def cleanLines (lineOut : List RawInstance) (pred_score_threshold containments_threshold : ℚ) :
    List RawInstance :=
  remove_overlapping_masks (align_masks_with_image (filteredLines lineOut pred_score_threshold))
    containments_threshold

/-- `ordered_indices` of `predict_lines` (line 113). -/
def orderLinesIdx (lineOut : List RawInstance) (p c sf : ℚ) : List Nat :=
  order_lines (cleanLines lineOut p c) sf

/-- `lines_cropped_ordered` of `predict_lines` (line 117). -/
def orderedLineCrops (lineOut : List RawInstance) (p c sf : ℚ) : List Crop :=
  (orderLinesIdx lineOut p c sf).map
    (fun i => ((crop_masks (cleanLines lineOut p c)).1).getD i default)

/-- `lines_polygons_ordered` of `predict_lines` (line 118). -/
def orderedLinePolygons (lineOut : List RawInstance) (p c sf : ℚ) : List Polygon :=
  (orderLinesIdx lineOut p c sf).map
    (fun i => ((crop_masks (cleanLines lineOut p c)).2).getD i default)

/-- `Inferencer.predict_lines` (lines 73–120), as a function of the line
model's prediction for the region image.  `custom_track` is the strict-mode
flag: when the filtered instance set is empty, strict mode raises the
`gr.Error` and lenient mode returns the source's `None, None, None` triple. -/
def predict_lines (lineOut : List RawInstance)
    (pred_score_threshold containments_threshold line_spacing_factor : ℚ)
    (visualize custom_track : Bool) :
    List Ev × Except PipeError LinesOut :=
  if (filteredLines lineOut pred_score_threshold).length = 0 then
    if custom_track then
      ([Ev.lineModel, Ev.filterStage],
        Except.error (PipeError.grError "No Lines were predicted by the model"))
    else
      ([Ev.lineModel, Ev.filterStage], Except.ok ⟨none, none, none⟩)
  else
    ([Ev.lineModel, Ev.filterStage, Ev.alignStage, Ev.resolveStage]
        ++ (if visualize then [Ev.vizStage] else []) ++ [Ev.cropStage, Ev.orderStage],
      Except.ok
        ⟨if visualize then
            some (cleanLines lineOut pred_score_threshold containments_threshold)
          else none,
        some (orderedLineCrops lineOut pred_score_threshold containments_threshold
          line_spacing_factor),
        some (orderedLinePolygons lineOut pred_score_threshold containments_threshold
          line_spacing_factor)⟩)

/-- `Inferencer.transcribe` (lines 122–125), as a function of the transcription
model's prediction: returns the text and the model's confidence rounded to four
decimals. -/
def transcribe (prediction : String × ℚ) : String × ℚ :=
  (prediction.1, (round (prediction.2 * 10000) : ℚ) / 10000)

/-- The processor/model bundle `transcribe_different_model` dispatches on: the
hard-coded Bullinger combination, or the generic TrOCR pair for the dropdown
model id. -/
inductive ProcessorChoice
  | bullinger
  | generic (modelId : String)
deriving DecidableEq, Repr

/-- `Inferencer.transcribe_different_model` (lines 127–148), as a function of
the external text generation (`model.generate` + `batch_decode`): dispatches
on the dropdown model id, generates the text, and returns it with the constant
confidence `1.0`. -/
def transcribe_different_model {Img : Type}
    (generate : ProcessorChoice → Img → String) (image : Img)
    (htr_tool_transcriber_model_dropdown : String) : String × ℚ :=
  let choice :=
    if htr_tool_transcriber_model_dropdown = "pstroe/bullinger-general-model" then
      ProcessorChoice.bullinger
    else
      ProcessorChoice.generic htr_tool_transcriber_model_dropdown
  (generate choice image, 1.0)

/-! ## Shared helper lemmas and concrete demo inputs -/

lemma getD_map_of_lt {α β : Type} (f : α → β) (l : List α) {i : Nat} (d : β) (d' : α)
    (h : i < l.length) : (l.map f).getD i d = f (l.getD i d') := by
  rw [List.getD_eq_getElem _ _ (by simpa using h), List.getD_eq_getElem _ _ h,
    List.getElem_map]

/-- A one-pixel instance with score 9/10. -/
def demoA : RawInstance := ⟨[(0, 0)], mkRat 9 10⟩

/-- A two-pixel instance containing `demoA`'s pixel, score 4/5. -/
def demoB : RawInstance := ⟨[(0, 0), (0, 1)], mkRat 4 5⟩

/-- An instance whose mask is empty (degenerate after alignment), score 9/10. -/
def degen : RawInstance := ⟨[], mkRat 9 10⟩

/-- A one-pixel instance disjoint from `demoA`, score 4/5. -/
def farC : RawInstance := ⟨[(5, 5)], mkRat 4 5⟩

/-! ## The claims -/

/-- C1, counterexample: with an empty line prediction in lenient
(`custom_track = False`) mode, `predict_lines` returns the triple
`None, None, None` — a null value in every component, not the claimed non-null
zero-line result. -/
theorem predict_lines_lenient_none_triple :
    predict_lines [] (mkRat 1 2) (mkRat 1 2) (mkRat 1 2) false false
      = ([Ev.lineModel, Ev.filterStage], Except.ok ⟨none, none, none⟩) := by
  with_unfolding_all rfl

/-- C1, amended: for a region whose filtered line instance set is empty, strict
mode (`custom_track = True`) raises the "No Lines were predicted by the model"
`gr.Error`, and lenient mode returns the triple `(None, None, None)`. -/
theorem predict_lines_empty_behavior (lineOut : List RawInstance)
    (p c sf : ℚ) (viz : Bool) (h : filteredLines lineOut p = []) :
    (predict_lines lineOut p c sf viz true).2
      = Except.error (PipeError.grError "No Lines were predicted by the model")
    ∧ (predict_lines lineOut p c sf viz false).2 = Except.ok ⟨none, none, none⟩ := by
  unfold predict_lines
  rw [h]
  simp

/-- C1, witness for the amended claim at the empty prediction. -/
theorem predict_lines_empty_behavior_witness :
    (predict_lines [] (mkRat 1 2) (mkRat 1 2) (mkRat 1 2) false true).2
      = Except.error (PipeError.grError "No Lines were predicted by the model")
    ∧ (predict_lines [] (mkRat 1 2) (mkRat 1 2) (mkRat 1 2) false false).2
      = Except.ok ⟨none, none, none⟩ :=
  predict_lines_empty_behavior [] (mkRat 1 2) (mkRat 1 2) (mkRat 1 2) false rfl

/-- C2, counterexample: calling `predict_regions` with
`pred_score_threshold = 3/2 ∉ [0,1]` does not fail fast before the model call —
the segmentation model is invoked, and the error eventually raised is the
ordinary "No Regions were predicted by the model" `gr.Error` (the code has no
`InvalidThreshold` error at all). -/
theorem invalid_threshold_not_raised :
    Ev.segModel ∈ (predict_regions [demoA] (mkRat 3 2) (mkRat 1 2) false).1
    ∧ (predict_regions [demoA] (mkRat 3 2) (mkRat 1 2) false).2
      = Except.error (PipeError.grError "No Regions were predicted by the model") := by
  have h : predict_regions [demoA] (mkRat 3 2) (mkRat 1 2) false
      = ([Ev.binarize, Ev.segModel, Ev.filterStage],
          Except.error (PipeError.grError "No Regions were predicted by the model")) := by
    with_unfolding_all rfl
  rw [h]
  exact ⟨by simp, rfl⟩

/-- C2, amended: no threshold validation exists — the segmentation model call
is attempted for every threshold value (in or out of `[0,1]`), in both
`predict_regions` and `predict_lines`. -/
theorem model_call_always_attempted (segOut lineOut : List RawInstance)
    (p c sf : ℚ) (viz ct : Bool) :
    Ev.segModel ∈ (predict_regions segOut p c viz).1
    ∧ Ev.lineModel ∈ (predict_lines lineOut p c sf viz ct).1 := by
  constructor
  · unfold predict_regions
    split <;> simp
  · unfold predict_lines
    split
    · split <;> simp
    · simp

/-- C3, counterexample: an instance whose mask is degenerate passes the score
filter, so the emptiness check at inferencer.py line 48 succeeds; alignment
then drops it, the CleanInstanceSet is empty — and `predict_regions` still
returns a successful (empty) result instead of the claimed `NoRegionsDetected`
failure. -/
theorem no_regions_check_misses_empty_clean_set :
    cleanRegions [degen] (mkRat 1 2) (mkRat 1 2) = []
    ∧ (predict_regions [degen] (mkRat 1 2) (mkRat 1 2) false).2
      = Except.ok ⟨none, [], [], []⟩ := by
  constructor
  · with_unfolding_all rfl
  · with_unfolding_all rfl

/-- C3, amended: `predict_regions` fails with the "No Regions were predicted by
the model" `gr.Error` exactly when the score-filtered instance set (before
alignment and overlap resolution) is empty, and in that case it does not
proceed to alignment, overlap resolution, cropping or ordering. -/
theorem predict_regions_failure_iff_filtered_empty (segOut : List RawInstance)
    (p c : ℚ) (viz : Bool) :
    ((predict_regions segOut p c viz).2
        = Except.error (PipeError.grError "No Regions were predicted by the model")
      ↔ filteredRegions segOut p = [])
    ∧ (filteredRegions segOut p = [] →
        (predict_regions segOut p c viz).1 = [Ev.binarize, Ev.segModel, Ev.filterStage]) := by
  by_cases hf : (filteredRegions segOut p).length = 0
  · have hnil : filteredRegions segOut p = [] := List.length_eq_zero.mp hf
    simp [predict_regions, hf, hnil]
  · have hne : ¬ filteredRegions segOut p = [] := fun hh => hf (by rw [hh]; rfl)
    simp [predict_regions, hf, hne]

/-- C4, counterexample: on two overlapping instances the stage log shows the
aligner running before the overlap resolver, and the set the aligner receives
(the filtered instances) is not the cleaned set the claim says it receives. -/
theorem align_before_resolve :
    (predict_regions [demoA, demoB] (mkRat 1 2) (mkRat 1 2) false).1
      = [Ev.binarize, Ev.segModel, Ev.filterStage, Ev.alignStage, Ev.resolveStage,
          Ev.cropStage, Ev.orderStage]
    ∧ filteredRegions [demoA, demoB] (mkRat 1 2)
      ≠ remove_overlapping_masks (filteredRegions [demoA, demoB] (mkRat 1 2)) (mkRat 1 2) := by
  constructor
  · with_unfolding_all rfl
  · have h1 : filteredRegions [demoA, demoB] (mkRat 1 2) = [demoA, demoB] := by
      with_unfolding_all rfl
    have h2 : remove_overlapping_masks (filteredRegions [demoA, demoB] (mkRat 1 2))
        (mkRat 1 2) = [demoB] := by
      with_unfolding_all rfl
    rw [h2, h1]
    exact of_decide_eq_true (by with_unfolding_all rfl)

/-- C4, amended: in both stages the order is MaskFilter, then MaskAligner, then
OverlapResolver, then Cropper and ReadingOrderEngine; overlap resolution
operates on the aligned filtered instances and cropping receives the cleaned
set. -/
theorem stage_order_filter_align_resolve (segOut lineOut : List RawInstance)
    (p c sf : ℚ) (viz ct : Bool)
    (hr : filteredRegions segOut p ≠ [])
    (hl : filteredLines lineOut p ≠ []) :
    (predict_regions segOut p c viz).1
      = [Ev.binarize, Ev.segModel, Ev.filterStage, Ev.alignStage, Ev.resolveStage]
        ++ (if viz then [Ev.vizStage] else []) ++ [Ev.cropStage, Ev.orderStage]
    ∧ (predict_lines lineOut p c sf viz ct).1
      = [Ev.lineModel, Ev.filterStage, Ev.alignStage, Ev.resolveStage]
        ++ (if viz then [Ev.vizStage] else []) ++ [Ev.cropStage, Ev.orderStage]
    ∧ cleanRegions segOut p c
      = remove_overlapping_masks (align_masks_with_image (filteredRegions segOut p)) c := by
  have hr' : ¬ (filteredRegions segOut p).length = 0 := by
    simpa [List.length_eq_zero] using hr
  have hl' : ¬ (filteredLines lineOut p).length = 0 := by
    simpa [List.length_eq_zero] using hl
  refine ⟨?_, ?_, rfl⟩
  · simp [predict_regions, hr']
  · simp [predict_lines, hl']

/-- C4, witness for the amended claim at a concrete non-empty prediction. -/
theorem stage_order_filter_align_resolve_witness :
    (predict_regions [demoA] (mkRat 1 2) (mkRat 1 2) false).1
      = [Ev.binarize, Ev.segModel, Ev.filterStage, Ev.alignStage, Ev.resolveStage]
        ++ (if false then [Ev.vizStage] else []) ++ [Ev.cropStage, Ev.orderStage]
    ∧ (predict_lines [demoA] (mkRat 1 2) (mkRat 1 2) (mkRat 1 2) false true).1
      = [Ev.lineModel, Ev.filterStage, Ev.alignStage, Ev.resolveStage]
        ++ (if false then [Ev.vizStage] else []) ++ [Ev.cropStage, Ev.orderStage]
    ∧ cleanRegions [demoA] (mkRat 1 2) (mkRat 1 2)
      = remove_overlapping_masks (align_masks_with_image
          (filteredRegions [demoA] (mkRat 1 2))) (mkRat 1 2) :=
  stage_order_filter_align_resolve [demoA] [demoA] (mkRat 1 2) (mkRat 1 2) (mkRat 1 2)
    false true
    (of_decide_eq_true (by with_unfolding_all rfl))
    (of_decide_eq_true (by with_unfolding_all rfl))

/-- C5: on any non-empty CleanInstanceSet both reading orders are permutations
of the positions `0..n-1`: same length as the input, and every position occurs
exactly once. -/
theorem ordering_is_permutation (l : List RawInstance) (sf : ℚ) (_h : l ≠ []) :
    List.Perm (order_regions_marginalia l) (List.range l.length)
    ∧ (order_regions_marginalia l).length = l.length
    ∧ (∀ i : Nat, i < l.length → (order_regions_marginalia l).count i = 1)
    ∧ List.Perm (order_lines l sf) (List.range l.length)
    ∧ (order_lines l sf).length = l.length
    ∧ (∀ i : Nat, i < l.length → (order_lines l sf).count i = 1) := by
  have hr := order_regions_marginalia_perm l
  have hl := order_lines_perm l sf
  refine ⟨hr, hr.length_eq.trans (List.length_range _), ?_, hl,
    hl.length_eq.trans (List.length_range _), ?_⟩
  · intro i hi
    exact List.count_eq_one_of_mem (hr.nodup_iff.mpr (List.nodup_range _))
      (hr.mem_iff.mpr (List.mem_range.mpr hi))
  · intro i hi
    exact List.count_eq_one_of_mem (hl.nodup_iff.mpr (List.nodup_range _))
      (hl.mem_iff.mpr (List.mem_range.mpr hi))

/-- C5, witness at a concrete one-instance set. -/
theorem ordering_is_permutation_witness :
    List.Perm (order_regions_marginalia [demoA]) (List.range [demoA].length)
    ∧ (order_regions_marginalia [demoA]).length = [demoA].length
    ∧ (∀ i : Nat, i < [demoA].length → (order_regions_marginalia [demoA]).count i = 1)
    ∧ List.Perm (order_lines [demoA] (mkRat 1 2)) (List.range [demoA].length)
    ∧ (order_lines [demoA] (mkRat 1 2)).length = [demoA].length
    ∧ (∀ i : Nat, i < [demoA].length → (order_lines [demoA] (mkRat 1 2)).count i = 1) :=
  ordering_is_permutation [demoA] (mkRat 1 2) (List.cons_ne_nil _ _)

/-- C6: every ordered pair of distinct survivors of `remove_overlapping_masks`
has containment ratio strictly below the containment threshold, in both
directions of the pair. -/
theorem clean_set_containment_invariant (l : List RawInstance) (t : ℚ) (i j : Nat)
    (hi : i < (remove_overlapping_masks l t).length)
    (hj : j < (remove_overlapping_masks l t).length) (hij : i ≠ j) :
    containment_ratio ((remove_overlapping_masks l t).getD i default).mask
      ((remove_overlapping_masks l t).getD j default).mask < t := by
  have h := findViolation_none (remove_overlapping_masks_findViolation_none l t) i j hi hj hij
  simpa [ratioIdx, getInst] using h

/-- C6, witness at a concrete two-instance disjoint set. -/
theorem clean_set_containment_invariant_witness :
    containment_ratio ((remove_overlapping_masks [demoA, farC] (mkRat 1 2)).getD 0 default).mask
      ((remove_overlapping_masks [demoA, farC] (mkRat 1 2)).getD 1 default).mask
      < mkRat 1 2 :=
  clean_set_containment_invariant [demoA, farC] (mkRat 1 2) 0 1
    (of_decide_eq_true (by with_unfolding_all rfl))
    (of_decide_eq_true (by with_unfolding_all rfl))
    (by decide)

/-- C7: applying `remove_overlapping_masks` a second time with the same
threshold to its own output returns that output unchanged. -/
theorem remove_overlapping_masks_idempotent (l : List RawInstance) (t : ℚ) :
    remove_overlapping_masks (remove_overlapping_masks l t) t
      = remove_overlapping_masks l t :=
  resolveAux_of_none _ (remove_overlapping_masks_findViolation_none l t)

/-- C8: the score filter's output size is monotone non-increasing in the
threshold, and the filter is stable — it keeps exactly the instances with
`score >= threshold`, as a sublist (original order) of the input. -/
theorem filter_monotone_and_stable (l : List RawInstance) (t₁ t₂ : ℚ) (h : t₁ ≤ t₂) :
    (filter_on_pred_threshold l t₂).length ≤ (filter_on_pred_threshold l t₁).length
    ∧ List.Sublist (filter_on_pred_threshold l t₁) l
    ∧ ∀ x : RawInstance, x ∈ filter_on_pred_threshold l t₁ ↔ x ∈ l ∧ t₁ ≤ x.score := by
  refine ⟨?_, List.filter_sublist l, ?_⟩
  · exact (List.monotone_filter_right l (fun a ha =>
      decide_eq_true (le_trans h (of_decide_eq_true ha)))).length_le
  · intro x
    simp [filter_on_pred_threshold, List.mem_filter]

/-- C8, witness at concrete thresholds 1/2 ≤ 3/4. -/
theorem filter_monotone_and_stable_witness :
    (filter_on_pred_threshold [demoA] (mkRat 3 4)).length
        ≤ (filter_on_pred_threshold [demoA] (mkRat 1 2)).length
    ∧ List.Sublist (filter_on_pred_threshold [demoA] (mkRat 1 2)) [demoA]
    ∧ ∀ x : RawInstance,
        x ∈ filter_on_pred_threshold [demoA] (mkRat 1 2) ↔ x ∈ [demoA] ∧ mkRat 1 2 ≤ x.score :=
  filter_monotone_and_stable [demoA] (mkRat 1 2) (mkRat 3 4) (by decide)

/-- C9: the ordered crops, polygons and masks of `predict_regions` are all
reindexed by the same order: at every position `i` the three outputs all come
from the CleanInstanceSet instance at position `order[i]`. -/
theorem ordered_outputs_index_aligned (segOut : List RawInstance) (p c : ℚ) (i : Nat)
    (hi : i < (orderRegions segOut p c).length) :
    (orderedCrops segOut p c).getD i default
        = cropOf ((cleanRegions segOut p c).getD ((orderRegions segOut p c).getD i 0) default)
    ∧ (orderedPolygons segOut p c).getD i default
        = polygonOf ((cleanRegions segOut p c).getD ((orderRegions segOut p c).getD i 0) default)
    ∧ (orderedMasks segOut p c).getD i default
        = ((cleanRegions segOut p c).getD ((orderRegions segOut p c).getD i 0) default).mask := by
  have hk : (orderRegions segOut p c).getD i 0 < (cleanRegions segOut p c).length := by
    have hmem : (orderRegions segOut p c).getD i 0 ∈ orderRegions segOut p c := by
      rw [List.getD_eq_getElem _ _ hi]
      exact List.getElem_mem hi
    exact List.mem_range.mp
      ((order_regions_marginalia_perm (cleanRegions segOut p c)).mem_iff.mp hmem)
  refine ⟨?_, ?_, ?_⟩
  · rw [orderedCrops, getD_map_of_lt _ _ _ 0 hi]
    exact getD_map_of_lt cropOf _ _ _ hk
  · rw [orderedPolygons, getD_map_of_lt _ _ _ 0 hi]
    exact getD_map_of_lt polygonOf _ _ _ hk
  · rw [orderedMasks, getD_map_of_lt _ _ _ 0 hi]

/-- C9, witness at a concrete one-instance prediction, position 0. -/
theorem ordered_outputs_index_aligned_witness :
    (orderedCrops [demoA] (mkRat 1 2) (mkRat 1 2)).getD 0 default
        = cropOf ((cleanRegions [demoA] (mkRat 1 2) (mkRat 1 2)).getD
            ((orderRegions [demoA] (mkRat 1 2) (mkRat 1 2)).getD 0 0) default)
    ∧ (orderedPolygons [demoA] (mkRat 1 2) (mkRat 1 2)).getD 0 default
        = polygonOf ((cleanRegions [demoA] (mkRat 1 2) (mkRat 1 2)).getD
            ((orderRegions [demoA] (mkRat 1 2) (mkRat 1 2)).getD 0 0) default)
    ∧ (orderedMasks [demoA] (mkRat 1 2) (mkRat 1 2)).getD 0 default
        = ((cleanRegions [demoA] (mkRat 1 2) (mkRat 1 2)).getD
            ((orderRegions [demoA] (mkRat 1 2) (mkRat 1 2)).getD 0 0) default).mask :=
  ordered_outputs_index_aligned [demoA] (mkRat 1 2) (mkRat 1 2) 0
    (of_decide_eq_true (by with_unfolding_all rfl))

/-- C10: `transcribe_different_model` returns the confidence value exactly 1,
for every image and every model identifier — unlike `transcribe`, which reports
the model's rounded confidence. -/
theorem transcribe_different_model_confidence {Img : Type}
    (generate : ProcessorChoice → Img → String) (image : Img) (modelId : String) :
    (transcribe_different_model generate image modelId).2 = 1 := by
  unfold transcribe_different_model
  norm_num

end HtrPipeline
